import Mathlib

/-!
# Redox meter: control loop of `src/main.cpp`

A shallow embedding of the polling loop of the AD7124 redox meter and of the
functions it calls (`isRedoxTooLow`, `measureVoltage`, `activatePumpFor`,
`doOnEveryMeasurement`, `doOnEveryMotorActivation`, `logString`).

Conventions of the embedding:

* `unsigned long` is a natural number below `2 ^ 32`; `millis()` yields its
  reading reduced modulo `2 ^ 32` and the subtraction of two timestamps is
  the wrapping subtraction `usub`.
* `double` is `Dbl`: not-a-number, the two infinities, or a finite value given
  by its exact rational value. The program only compares doubles (`>`); the
  arithmetic that produces them belongs to the AD7124 driver.
* Every call that reaches outside the program (clock, pins, ADC, serial port,
  `delay`) is appended, in program order, to the `trace` of the `World`.
* The values the outside returns (clock readings, raw ADC counts, the
  indeterminate content of an uninitialised local) come from an `Env`.
-/

namespace RedoxMeter

/-! ## Data model -/

/-- Values of the C++ type `double`, up to what `>` can observe: a finite
value is represented by its exact rational value (both zeros are `fin 0`). -/
inductive Dbl where
  | nan : Dbl
  | negInf : Dbl
  | fin (q : ℚ) : Dbl
  | posInf : Dbl
  deriving DecidableEq

/-- The comparison `a > b` on `double`: false as soon as one side is
not-a-number. -/
def Dbl.gt : Dbl → Dbl → Bool
  | .nan, _ => false
  | _, .nan => false
  | .negInf, _ => false
  | .fin _, .negInf => true
  | .fin a, .fin b => decide (b < a)
  | .fin _, .posInf => false
  | .posInf, .posInf => false
  | .posInf, _ => true

/-- The comparison `a <= b` on `double`: false as soon as one side is
not-a-number. -/
def Dbl.le : Dbl → Dbl → Bool
  | .nan, _ => false
  | _, .nan => false
  | .negInf, _ => true
  | .fin _, .negInf => false
  | .fin a, .fin b => decide (a ≤ b)
  | .fin _, .posInf => true
  | .posInf, .posInf => true
  | .posInf, _ => false

/-- Modelled from the spec: `config.h` is not among the sources. The spec
names two fixed output pins, the status indicator (`ledPin`) and the pump
relay (`motorPin`); they are told apart by role. -/
inductive Pin where
  | led : Pin
  | motor : Pin
  deriving DecidableEq

/-- The compile-time constants of `config.h`, which is not among the sources,
as parameters. The two durations are the values that the `unsigned long`
differences of `loop` are compared with. -/
structure Config where
  setpoint : Dbl
  measeurementInterval : Nat
  pauseAfterMotorActivation : Nat

/-- One call that reaches outside the program. -/
inductive Event where
  | millis (reading : Nat) : Event
  | digitalWrite (pin : Pin) (level : Bool) : Event
  | adcRead (channel : Nat) (value : Int) : Event
  | toVoltage (value : Int) (gain : Nat) (vref : Dbl) (bipolar : Bool) : Event
  | delay (ms : Nat) : Event
  | serialPrint (text : String) : Event
  | serialPrintln (text : String) : Event
  deriving DecidableEq

/-- What the outside answers. `clock k` is the time at the `k`-th call of
`millis()`, `adc k` the count returned by the `k`-th `adc.read`, `uninit k`
the indeterminate content of the local `voltage` of the `k`-th call of
`measureVoltage`; `toVoltage` is the conversion of the AD7124 driver and
`dtostrf` the number formatting of the C library. -/
structure Env where
  clock : Nat → Nat
  adc : Nat → Int
  uninit : Nat → Dbl
  toVoltage : Int → Nat → Dbl → Bool → Dbl
  dtostrf : Dbl → Int → Nat → String

/-- The globals `lastMeasurement` and `lastRun`, the levels of the two output
pins, the number of clock and ADC calls made so far, and the trace. -/
structure World where
  lastMeasurement : Nat
  lastRun : Nat
  ledLevel : Bool
  motorLevel : Bool
  ticks : Nat
  reads : Nat
  trace : List Event

/-- The state at power-on: `lastMeasurement = 0`, `lastRun = 0`. -/
def World.init : World :=
  { lastMeasurement := 0, lastRun := 0, ledLevel := false, motorLevel := false,
    ticks := 0, reads := 0, trace := [] }

/-! ## Machine arithmetic -/

/-- Number of values of an `unsigned long`. -/
def ulongMod : Nat := 4294967296

/-- Subtraction of two `unsigned long` values. -/
def usub (a b : Nat) : Nat := (a + (ulongMod - b % ulongMod)) % ulongMod

/-- Conversion of an `int` argument to the `unsigned long` parameter of
`delay`. -/
def toULong (i : Int) : Nat := (i % (ulongMod : Int)).toNat

/-! ## Calls to the outside -/

/-- The call `millis()`. -/
def millis (env : Env) (w : World) : Nat × World :=
  let t := env.clock w.ticks % ulongMod
  (t, { w with ticks := w.ticks + 1, trace := w.trace ++ [Event.millis t] })

/-- The call `digitalWrite(pin, level)`. -/
def digitalWrite (pin : Pin) (level : Bool) (w : World) : World :=
  match pin with
  | .led => { w with ledLevel := level, trace := w.trace ++ [Event.digitalWrite .led level] }
  | .motor =>
    { w with motorLevel := level, trace := w.trace ++ [Event.digitalWrite .motor level] }

/-- The call `adc.read(channel)`. -/
def adcRead (channel : Nat) (env : Env) (w : World) : Int × World :=
  let value := env.adc w.reads
  (value, { w with reads := w.reads + 1, trace := w.trace ++ [Event.adcRead channel value] })

/-- The call `Ad7124Chip::toVoltage(value, gain, vref, bipolar)`. -/
def toVoltage (env : Env) (value : Int) (gain : Nat) (vref : Dbl) (bipolar : Bool)
    (w : World) : Dbl × World :=
  (env.toVoltage value gain vref bipolar,
    { w with trace := w.trace ++ [Event.toVoltage value gain vref bipolar] })

/-- The call `delay(ms)`. -/
def delay (ms : Nat) (w : World) : World :=
  { w with trace := w.trace ++ [Event.delay ms] }

/-- The call `Serial.print(text)`. -/
def serialPrint (text : String) (w : World) : World :=
  { w with trace := w.trace ++ [Event.serialPrint text] }

/-- The call `Serial.println(text)`. -/
def serialPrintln (text : String) (w : World) : World :=
  { w with trace := w.trace ++ [Event.serialPrintln text] }

/-! ## The program -/

/-- `logString(severity, message)`. -/
def logString (severity message : String) (w : World) : World :=
  let w1 := serialPrint ("[" ++ severity ++ "]") w
  let w2 := serialPrint ": " w1
  serialPrintln message w2

/-- `doOnEveryMotorActivation()`. -/
def doOnEveryMotorActivation (w : World) : World :=
  logString "INFO" "Motor has been activated" w

/-- `doOnEveryMeasurement(voltage)`. -/
def doOnEveryMeasurement (env : Env) (voltage : Dbl) (w : World) : World :=
  let buff := env.dtostrf voltage 5 3
  logString "INFO" ("Voltage: " ++ buff ++ "V") w

/-- `activatePumpFor(ms)`. -/
def activatePumpFor (ms : Int) (w : World) : World :=
  let w1 := doOnEveryMotorActivation w
  let w2 := digitalWrite .led true w1
  let w3 := digitalWrite .motor true w2
  let w4 := delay (toULong ms) w3
  let w5 := digitalWrite .motor false w4
  digitalWrite .led false w5

/-- `measureVoltage()`. The local `voltage` is declared without an
initialiser: its content before the assignment is `env.uninit`. -/
def measureVoltage (env : Env) (w : World) : Dbl × World :=
  let voltage := env.uninit w.reads
  let w1 := digitalWrite .led false w
  let r := adcRead 0 env w1
  let value := r.1
  let w3 := digitalWrite .led true r.2
  if value ≥ 0 then
    toVoltage env value 4 (.fin (5 / 2)) true w3
  else
    (voltage, w3)

/-- `isRedoxTooLow()`. -/
def isRedoxTooLow (cfg : Config) (env : Env) (w : World) : Bool × World :=
  let r := measureVoltage env w
  let voltage := r.1
  let w2 := doOnEveryMeasurement env voltage r.2
  if voltage.gt cfg.setpoint then (true, w2) else (false, w2)

/-- The condition `(x && millis() - lastRun > pauseAfterMotorActivation) ||
(x && lastRun == 0)` of `loop`, with the short-circuit evaluation of `&&`
and `||`: the clock is read only when `x` holds. -/
def pumpCondition (cfg : Config) (env : Env) (x : Bool) (w : World) : Bool × World :=
  if x then
    let r := millis env w
    if usub r.1 r.2.lastRun > cfg.pauseAfterMotorActivation then (true, r.2)
    else (decide (r.2.lastRun = 0), r.2)
  else (false, w)

/-- The condition `x && millis() - lastRun < pauseAfterMotorActivation` of
`loop`: the clock is read only when `x` holds. -/
def warnCondition (cfg : Config) (env : Env) (x : Bool) (w : World) : Bool × World :=
  if x then
    let r := millis env w
    (decide (usub r.1 r.2.lastRun < cfg.pauseAfterMotorActivation), r.2)
  else (false, w)

/-- The body of the `if` of `loop`: one measurement cycle. -/
def measurementCycle (cfg : Config) (env : Env) (w : World) : World :=
  let r := millis env w
  let w1 := { r.2 with lastMeasurement := r.1 }
  let rx := isRedoxTooLow cfg env w1
  let x := rx.1
  let rc := pumpCondition cfg env x rx.2
  if rc.1 then
    let w3 := activatePumpFor 2000 rc.2
    let r4 := millis env w3
    { r4.2 with lastRun := r4.1 }
  else
    let rw := warnCondition cfg env x rc.2
    if rw.1 then
      logString "WARN" "Redox too low, but pump already activated recently" rw.2
    else
      logString "INFO" "Redox ok" rw.2

/-- One iteration of `loop()`. -/
def loop (cfg : Config) (env : Env) (w : World) : World :=
  let r := millis env w
  let w1 :=
    if usub r.1 r.2.lastMeasurement > cfg.measeurementInterval then
      measurementCycle cfg env r.2
    else r.2
  delay 100 w1

/-- The state after `n` iterations of `loop()`. -/
def run (cfg : Config) (env : Env) : Nat → World → World
  | 0, w => w
  | n + 1, w => run cfg env n (loop cfg env w)

/-! ## Observations on traces -/

/-- The events appended to the trace between the worlds `w0` and `w1`. -/
def emitted (w0 w1 : World) : List Event := w1.trace.drop w0.trace.length

/-- Number of times the pump pin is driven HIGH. Only `activatePumpFor` does
so, once per call. -/
def pumpActivations (t : List Event) : Nat := t.count (Event.digitalWrite .motor true)

/-- Number of writes to the pump pin, of either level. -/
def motorWrites (t : List Event) : Nat :=
  t.count (Event.digitalWrite .motor true) + t.count (Event.digitalWrite .motor false)

/-- Number of pin writes. -/
def pinWrites (t : List Event) : Nat :=
  t.countP fun e => match e with
    | .digitalWrite _ _ => true
    | _ => false

/-- Number of ADC reads. -/
def adcReads (t : List Event) : Nat :=
  t.countP fun e => match e with
    | .adcRead _ _ => true
    | _ => false

/-- Number of count-to-voltage conversions. -/
def conversions (t : List Event) : Nat :=
  t.countP fun e => match e with
    | .toVoltage _ _ _ _ => true
    | _ => false

/-- Number of serial-port writes. -/
def serialWrites (t : List Event) : Nat :=
  t.countP fun e => match e with
    | .serialPrint _ => true
    | .serialPrintln _ => true
    | _ => false

/-- Number of log lines of the given severity: every line that `logString`
writes starts with the print of its bracketed severity. -/
def logLines (severity : String) (t : List Event) : Nat :=
  t.count (Event.serialPrint ("[" ++ severity ++ "]"))

/-- Number of lines whose message is `message`. -/
def messageLines (message : String) (t : List Event) : Nat :=
  t.count (Event.serialPrintln message)

/-- Level of `pin` after the events of `t`, when it was `level` before. -/
def pinAfter (pin : Pin) (level : Bool) : List Event → Bool
  | [] => level
  | Event.digitalWrite p l :: t => pinAfter pin (if p = pin then l else level) t
  | _ :: t => pinAfter pin level t

/-- The events of `t` that start while `pin` is HIGH, when its level was
`level` before `t`. -/
def eventsWhileHigh (pin : Pin) (level : Bool) : List Event → List Event
  | [] => []
  | e :: t => (if level then [e] else []) ++ eventsWhileHigh pin (pinAfter pin level [e]) t

/-- The three serial writes of one `logString` call (`emitted_logString`). -/
def logEvents (severity message : String) : List Event :=
  [Event.serialPrint ("[" ++ severity ++ "]"), Event.serialPrint ": ",
    Event.serialPrintln message]

/-- The voltage that the `k`-th call of `measureVoltage` returns
(`measureVoltage_fst`). -/
def voltageAt (env : Env) (k : Nat) : Dbl :=
  if env.adc k ≥ 0 then env.toVoltage (env.adc k) 4 (.fin (5 / 2)) true else env.uninit k

/-- The events of the `k`-th call of `measureVoltage`
(`emitted_measureVoltage`). -/
def measureEvents (env : Env) (k : Nat) : List Event :=
  [Event.digitalWrite .led false, Event.adcRead 0 (env.adc k), Event.digitalWrite .led true] ++
    (if env.adc k ≥ 0 then [Event.toVoltage (env.adc k) 4 (.fin (5 / 2)) true] else [])

/-- The events of the `k`-th call of `isRedoxTooLow`
(`emitted_isRedoxTooLow`). -/
def redoxEvents (env : Env) (k : Nat) : List Event :=
  measureEvents env k ++
    logEvents "INFO" ("Voltage: " ++ env.dtostrf (voltageAt env k) 5 3 ++ "V")

/-- The events of `activatePumpFor ms` (`emitted_activatePumpFor`). -/
def pumpEvents (ms : Int) : List Event :=
  logEvents "INFO" "Motor has been activated" ++
    [Event.digitalWrite .led true, Event.digitalWrite .motor true, Event.delay (toULong ms),
      Event.digitalWrite .motor false, Event.digitalWrite .led false]

/-! ## Concrete inputs -/

/-- Modelled from the spec: the configuration of Scenario 1 (`config.h` is
not among the sources): setpoint 1.0 V, measurement interval 5000 ms,
cooldown 600000 ms. -/
def scenarioConfig : Config :=
  { setpoint := .fin 1, measeurementInterval := 5000, pauseAfterMotorActivation := 600000 }

/-- An environment for concrete evaluations: the conversion yields one
millivolt per count, an uninitialised `voltage` holds `0.0`. -/
def sampleEnv (clock : Nat → Nat) (adc : Nat → Int) : Env :=
  { clock := clock, adc := adc, uninit := fun _ => Dbl.fin 0,
    toVoltage := fun value _ _ _ => Dbl.fin (value / 1000), dtostrf := fun _ _ _ => "?" }

/-- The environment of a sensor fault that follows a good measurement: the
first raw read is 1500 (1.5 V with one millivolt per count), every later raw
read is `-1`, and the uninitialised local `voltage` holds `u`. -/
def faultEnv (u : Dbl) : Env :=
  { clock := fun _ => 0, adc := fun k => if k = 0 then 1500 else -1, uninit := fun _ => u,
    toVoltage := fun value _ _ _ => Dbl.fin (value / 1000), dtostrf := fun _ _ _ => "?" }

/-- A clock that starts at 5001 ms, advances 3000 ms per reading and stops
short of the wrap-around. -/
def boundedClock (k : Nat) : Nat := min (5001 + 3000 * k) 4000000000

/-- The invariant behind the sentinel: `lastMeasurement` is not ahead of the
clock, `lastRun` is `0` exactly when the trace holds no activation, and
otherwise it is the clock reading that follows the last activation. -/
def SentinelInv (env : Env) (w : World) : Prop :=
  w.lastMeasurement ≤ env.clock w.ticks ∧
  (w.lastRun = 0 ↔ pumpActivations w.trace = 0) ∧
  (pumpActivations w.trace ≠ 0 → ∃ before after,
    w.trace = before ++ pumpEvents 2000 ++ Event.millis w.lastRun :: after ∧
    pumpActivations after = 0)

/-! ## Equations of the program -/

theorem emitted_of_trace {w0 w1 : World} {l : List Event} (h : w1.trace = w0.trace ++ l) :
    emitted w0 w1 = l := by
  simp [emitted, h]

theorem logString_eq (severity message : String) (w : World) :
    logString severity message w =
      { w with trace := w.trace ++ logEvents severity message } := by
  simp [logString, serialPrint, serialPrintln, logEvents]

theorem measureVoltage_eq (env : Env) (w : World) :
    measureVoltage env w =
      (voltageAt env w.reads,
        { w with ledLevel := true, reads := w.reads + 1,
                 trace := w.trace ++ measureEvents env w.reads }) := by
  by_cases h : env.adc w.reads ≥ 0 <;>
    simp [measureVoltage, adcRead, digitalWrite, toVoltage, voltageAt, measureEvents, h]

theorem isRedoxTooLow_eq (cfg : Config) (env : Env) (w : World) :
    isRedoxTooLow cfg env w =
      ((voltageAt env w.reads).gt cfg.setpoint,
        { w with ledLevel := true, reads := w.reads + 1,
                 trace := w.trace ++ redoxEvents env w.reads }) := by
  simp only [isRedoxTooLow, measureVoltage_eq, doOnEveryMeasurement, logString_eq, redoxEvents]
  cases (voltageAt env w.reads).gt cfg.setpoint <;> simp

theorem activatePumpFor_eq (ms : Int) (w : World) :
    activatePumpFor ms w =
      { w with ledLevel := false, motorLevel := false,
               trace := w.trace ++ pumpEvents ms } := by
  simp [activatePumpFor, doOnEveryMotorActivation, logString_eq, digitalWrite, delay,
    pumpEvents]

theorem pumpCondition_true (cfg : Config) (env : Env) (w : World) :
    pumpCondition cfg env true w =
      (decide (usub (env.clock w.ticks % ulongMod) w.lastRun > cfg.pauseAfterMotorActivation ∨
          w.lastRun = 0),
        { w with ticks := w.ticks + 1,
                 trace := w.trace ++ [Event.millis (env.clock w.ticks % ulongMod)] }) := by
  simp only [pumpCondition, millis, if_true]
  split
  · next h => simp [h]
  · next h => simp [h]

theorem pumpCondition_false (cfg : Config) (env : Env) (w : World) :
    pumpCondition cfg env false w = (false, w) := by
  simp [pumpCondition]

theorem warnCondition_true (cfg : Config) (env : Env) (w : World) :
    warnCondition cfg env true w =
      (decide (usub (env.clock w.ticks % ulongMod) w.lastRun < cfg.pauseAfterMotorActivation),
        { w with ticks := w.ticks + 1,
                 trace := w.trace ++ [Event.millis (env.clock w.ticks % ulongMod)] }) := by
  simp [warnCondition, millis]

theorem warnCondition_false (cfg : Config) (env : Env) (w : World) :
    warnCondition cfg env false w = (false, w) := by
  simp [warnCondition]

/-- The gate is closed: the iteration reads the clock once and sleeps. -/
theorem loop_idle (cfg : Config) (env : Env) (w : World)
    (hgate : ¬ cfg.measeurementInterval < usub (env.clock w.ticks % ulongMod) w.lastMeasurement) :
    loop cfg env w =
      { w with ticks := w.ticks + 1,
               trace := w.trace ++
                 [Event.millis (env.clock w.ticks % ulongMod), Event.delay 100] } := by
  simp [loop, millis, delay, hgate]

/-- The gate is open and `isRedoxTooLow` answers `false`. -/
theorem loop_ok (cfg : Config) (env : Env) (w : World)
    (hgate : cfg.measeurementInterval < usub (env.clock w.ticks % ulongMod) w.lastMeasurement)
    (hv : (voltageAt env w.reads).gt cfg.setpoint = false) :
    loop cfg env w =
      { w with lastMeasurement := env.clock (w.ticks + 1) % ulongMod, ledLevel := true,
               ticks := w.ticks + 2, reads := w.reads + 1,
               trace := w.trace ++ ([Event.millis (env.clock w.ticks % ulongMod),
                 Event.millis (env.clock (w.ticks + 1) % ulongMod)] ++ redoxEvents env w.reads ++
                 logEvents "INFO" "Redox ok" ++ [Event.delay 100]) } := by
  simp [loop, millis, delay, hgate, measurementCycle, isRedoxTooLow_eq, pumpCondition_false,
    warnCondition_false, hv, logString_eq]

/-- The gate is open, `isRedoxTooLow` answers `true` and the first condition
of `loop` holds. -/
theorem loop_pump (cfg : Config) (env : Env) (w : World)
    (hgate : cfg.measeurementInterval < usub (env.clock w.ticks % ulongMod) w.lastMeasurement)
    (hv : (voltageAt env w.reads).gt cfg.setpoint = true)
    (hc : cfg.pauseAfterMotorActivation < usub (env.clock (w.ticks + 2) % ulongMod) w.lastRun ∨
      w.lastRun = 0) :
    loop cfg env w =
      { lastMeasurement := env.clock (w.ticks + 1) % ulongMod,
        lastRun := env.clock (w.ticks + 3) % ulongMod,
        ledLevel := false, motorLevel := false,
        ticks := w.ticks + 4, reads := w.reads + 1,
        trace := w.trace ++ ([Event.millis (env.clock w.ticks % ulongMod),
          Event.millis (env.clock (w.ticks + 1) % ulongMod)] ++ redoxEvents env w.reads ++
          [Event.millis (env.clock (w.ticks + 2) % ulongMod)] ++ pumpEvents 2000 ++
          [Event.millis (env.clock (w.ticks + 3) % ulongMod), Event.delay 100]) } := by
  simp [loop, millis, delay, hgate, measurementCycle, isRedoxTooLow_eq, hv, logString_eq,
    activatePumpFor_eq, pumpCondition_true, hc]

/-- The gate is open, `isRedoxTooLow` answers `true` and the first condition
of `loop` fails: the second condition picks the line that is logged. -/
theorem loop_warn (cfg : Config) (env : Env) (w : World)
    (hgate : cfg.measeurementInterval < usub (env.clock w.ticks % ulongMod) w.lastMeasurement)
    (hv : (voltageAt env w.reads).gt cfg.setpoint = true)
    (hc : ¬ (cfg.pauseAfterMotorActivation <
      usub (env.clock (w.ticks + 2) % ulongMod) w.lastRun ∨ w.lastRun = 0)) :
    loop cfg env w =
      { w with lastMeasurement := env.clock (w.ticks + 1) % ulongMod, ledLevel := true,
               ticks := w.ticks + 4, reads := w.reads + 1,
               trace := w.trace ++ ([Event.millis (env.clock w.ticks % ulongMod),
                 Event.millis (env.clock (w.ticks + 1) % ulongMod)] ++ redoxEvents env w.reads ++
                 [Event.millis (env.clock (w.ticks + 2) % ulongMod),
                   Event.millis (env.clock (w.ticks + 3) % ulongMod)] ++
                 (if usub (env.clock (w.ticks + 3) % ulongMod) w.lastRun <
                      cfg.pauseAfterMotorActivation then
                    logEvents "WARN" "Redox too low, but pump already activated recently"
                  else logEvents "INFO" "Redox ok") ++ [Event.delay 100]) } := by
  simp [loop, millis, delay, hgate, measurementCycle, isRedoxTooLow_eq, hv, logString_eq,
    pumpCondition_true, warnCondition_true, hc]
  split <;> simp

theorem emitted_isRedoxTooLow (cfg : Config) (env : Env) (w : World) :
    emitted w (isRedoxTooLow cfg env w).2 = redoxEvents env w.reads := by
  simp [isRedoxTooLow_eq, emitted]

theorem emitted_measureVoltage (env : Env) (w : World) :
    emitted w (measureVoltage env w).2 = measureEvents env w.reads := by
  simp [measureVoltage_eq, emitted]

theorem emitted_activatePumpFor (ms : Int) (w : World) :
    emitted w (activatePumpFor ms w) = pumpEvents ms := by
  simp [activatePumpFor_eq, emitted]

theorem emitted_logString (severity message : String) (w : World) :
    emitted w (logString severity message w) = logEvents severity message := by
  simp [logString_eq, emitted]

theorem measureVoltage_fst (env : Env) (w : World) :
    (measureVoltage env w).1 = voltageAt env w.reads := by
  simp [measureVoltage_eq]

/-! ## Counting lemmas -/

theorem pumpActivations_append (a b : List Event) :
    pumpActivations (a ++ b) = pumpActivations a + pumpActivations b := by
  simp [pumpActivations]

theorem motorWrites_append (a b : List Event) :
    motorWrites (a ++ b) = motorWrites a + motorWrites b := by
  simp [motorWrites]; omega

theorem adcReads_append (a b : List Event) : adcReads (a ++ b) = adcReads a + adcReads b := by
  simp [adcReads]

theorem logLines_append (s : String) (a b : List Event) :
    logLines s (a ++ b) = logLines s a + logLines s b := by
  simp [logLines]

theorem messageLines_append (s : String) (a b : List Event) :
    messageLines s (a ++ b) = messageLines s a + messageLines s b := by
  simp [messageLines]

theorem counts_clock (l : List Nat) :
    pumpActivations (l.map Event.millis) = 0 ∧ motorWrites (l.map Event.millis) = 0 ∧
    adcReads (l.map Event.millis) = 0 ∧ logLines "WARN" (l.map Event.millis) = 0 ∧
    messageLines "Redox ok" (l.map Event.millis) = 0 ∧
    List.count (Event.delay 100) (l.map Event.millis) = 0 := by
  induction l with
  | nil => simp [pumpActivations, motorWrites, adcReads, logLines, messageLines]
  | cons a l ih =>
    simp only [pumpActivations, motorWrites, adcReads, logLines, messageLines] at ih ⊢
    simp [List.count_cons, List.countP_cons] at ih ⊢
    simp_all

theorem counts_redoxEvents (env : Env) (k : Nat) :
    pumpActivations (redoxEvents env k) = 0 ∧ motorWrites (redoxEvents env k) = 0 ∧
    adcReads (redoxEvents env k) = 1 ∧ logLines "WARN" (redoxEvents env k) = 0 ∧
    messageLines "Redox ok" (redoxEvents env k) = 0 ∧
    List.count (Event.delay 100) (redoxEvents env k) = 0 := by
  have hs : "Voltage: " ++ env.dtostrf (voltageAt env k) 5 3 ++ "V" ≠ "Redox ok" := by
    intro h
    have h2 := congrArg String.data h
    simp at h2
  by_cases h : env.adc k ≥ 0 <;>
    simp [pumpActivations, motorWrites, adcReads, logLines, messageLines, redoxEvents,
      measureEvents, logEvents, List.count_cons, List.countP_cons, h, hs]

theorem counts_pumpEvents :
    pumpActivations (pumpEvents 2000) = 1 ∧ adcReads (pumpEvents 2000) = 0 ∧
    logLines "WARN" (pumpEvents 2000) = 0 ∧
    List.count (Event.delay 100) (pumpEvents 2000) = 0 := by
  simp [pumpActivations, adcReads, logLines, pumpEvents, logEvents, List.count_cons,
    List.countP_cons, toULong, ulongMod]

theorem counts_warn :
    pumpActivations (logEvents "WARN" "Redox too low, but pump already activated recently") = 0 ∧
    motorWrites (logEvents "WARN" "Redox too low, but pump already activated recently") = 0 ∧
    adcReads (logEvents "WARN" "Redox too low, but pump already activated recently") = 0 ∧
    logLines "WARN" (logEvents "WARN" "Redox too low, but pump already activated recently") = 1 ∧
    List.count (Event.delay 100)
      (logEvents "WARN" "Redox too low, but pump already activated recently") = 0 := by
  simp [pumpActivations, motorWrites, adcReads, logLines, logEvents, List.count_cons,
    List.countP_cons]

theorem counts_ok :
    pumpActivations (logEvents "INFO" "Redox ok") = 0 ∧
    motorWrites (logEvents "INFO" "Redox ok") = 0 ∧
    adcReads (logEvents "INFO" "Redox ok") = 0 ∧
    logLines "WARN" (logEvents "INFO" "Redox ok") = 0 ∧
    messageLines "Redox ok" (logEvents "INFO" "Redox ok") = 1 ∧
    List.count (Event.delay 100) (logEvents "INFO" "Redox ok") = 0 := by
  simp [pumpActivations, motorWrites, adcReads, logLines, messageLines, logEvents,
    List.count_cons, List.countP_cons]

theorem counts_sleep :
    pumpActivations [Event.delay 100] = 0 ∧ motorWrites [Event.delay 100] = 0 ∧
    adcReads [Event.delay 100] = 0 ∧ logLines "WARN" [Event.delay 100] = 0 ∧
    messageLines "Redox ok" [Event.delay 100] = 0 := by
  simp [pumpActivations, motorWrites, adcReads, logLines, messageLines, List.count_cons,
    List.countP_cons]

/-- The four paths of one iteration of `loop`, with the events of each. -/
theorem loop_paths (cfg : Config) (env : Env) (w : World) :
    (¬ cfg.measeurementInterval < usub (env.clock w.ticks % ulongMod) w.lastMeasurement ∧
      emitted w (loop cfg env w) = [env.clock w.ticks % ulongMod].map Event.millis ++
        [Event.delay 100]) ∨
    (cfg.measeurementInterval < usub (env.clock w.ticks % ulongMod) w.lastMeasurement ∧
      (voltageAt env w.reads).gt cfg.setpoint = false ∧
      emitted w (loop cfg env w) =
        [env.clock w.ticks % ulongMod, env.clock (w.ticks + 1) % ulongMod].map Event.millis ++
        redoxEvents env w.reads ++ logEvents "INFO" "Redox ok" ++ [Event.delay 100]) ∨
    (cfg.measeurementInterval < usub (env.clock w.ticks % ulongMod) w.lastMeasurement ∧
      (voltageAt env w.reads).gt cfg.setpoint = true ∧
      (cfg.pauseAfterMotorActivation < usub (env.clock (w.ticks + 2) % ulongMod) w.lastRun ∨
        w.lastRun = 0) ∧
      emitted w (loop cfg env w) =
        [env.clock w.ticks % ulongMod, env.clock (w.ticks + 1) % ulongMod].map Event.millis ++
        redoxEvents env w.reads ++ [env.clock (w.ticks + 2) % ulongMod].map Event.millis ++
        pumpEvents 2000 ++ [env.clock (w.ticks + 3) % ulongMod].map Event.millis ++
        [Event.delay 100]) ∨
    (cfg.measeurementInterval < usub (env.clock w.ticks % ulongMod) w.lastMeasurement ∧
      (voltageAt env w.reads).gt cfg.setpoint = true ∧
      ¬ (cfg.pauseAfterMotorActivation < usub (env.clock (w.ticks + 2) % ulongMod) w.lastRun ∨
        w.lastRun = 0) ∧
      usub (env.clock (w.ticks + 3) % ulongMod) w.lastRun < cfg.pauseAfterMotorActivation ∧
      emitted w (loop cfg env w) =
        [env.clock w.ticks % ulongMod, env.clock (w.ticks + 1) % ulongMod].map Event.millis ++
        redoxEvents env w.reads ++
        [env.clock (w.ticks + 2) % ulongMod, env.clock (w.ticks + 3) % ulongMod].map
          Event.millis ++
        logEvents "WARN" "Redox too low, but pump already activated recently" ++
        [Event.delay 100]) ∨
    (cfg.measeurementInterval < usub (env.clock w.ticks % ulongMod) w.lastMeasurement ∧
      (voltageAt env w.reads).gt cfg.setpoint = true ∧
      ¬ (cfg.pauseAfterMotorActivation < usub (env.clock (w.ticks + 2) % ulongMod) w.lastRun ∨
        w.lastRun = 0) ∧
      ¬ usub (env.clock (w.ticks + 3) % ulongMod) w.lastRun < cfg.pauseAfterMotorActivation ∧
      emitted w (loop cfg env w) =
        [env.clock w.ticks % ulongMod, env.clock (w.ticks + 1) % ulongMod].map Event.millis ++
        redoxEvents env w.reads ++
        [env.clock (w.ticks + 2) % ulongMod, env.clock (w.ticks + 3) % ulongMod].map
          Event.millis ++
        logEvents "INFO" "Redox ok" ++ [Event.delay 100]) := by
  by_cases hgate :
      cfg.measeurementInterval < usub (env.clock w.ticks % ulongMod) w.lastMeasurement
  · cases hv : (voltageAt env w.reads).gt cfg.setpoint
    · refine Or.inr (Or.inl ⟨hgate, rfl, emitted_of_trace ?_⟩)
      rw [loop_ok cfg env w hgate hv]; simp
    · by_cases hc : cfg.pauseAfterMotorActivation <
          usub (env.clock (w.ticks + 2) % ulongMod) w.lastRun ∨ w.lastRun = 0
      · refine Or.inr (Or.inr (Or.inl ⟨hgate, rfl, hc, emitted_of_trace ?_⟩))
        rw [loop_pump cfg env w hgate hv hc]; simp
      · by_cases hw : usub (env.clock (w.ticks + 3) % ulongMod) w.lastRun <
            cfg.pauseAfterMotorActivation
        · refine Or.inr (Or.inr (Or.inr (Or.inl ⟨hgate, rfl, hc, hw, emitted_of_trace ?_⟩)))
          rw [loop_warn cfg env w hgate hv hc]; simp [hw]
        · refine Or.inr (Or.inr (Or.inr (Or.inr ⟨hgate, rfl, hc, hw, emitted_of_trace ?_⟩)))
          rw [loop_warn cfg env w hgate hv hc]; simp [hw]
  · refine Or.inl ⟨hgate, emitted_of_trace ?_⟩
    rw [loop_idle cfg env w hgate]; simp

theorem Dbl.gt_self (v : Dbl) : v.gt v = false := by
  cases v <;> simp [Dbl.gt]

theorem Dbl.gt_of_le {a b : Dbl} (h : a.le b = true) : a.gt b = false := by
  cases a <;> cases b <;> simp_all [Dbl.gt, Dbl.le]

theorem toULong_of_nonneg (ms : Int) (h0 : 0 ≤ ms) (h1 : ms < 4294967296) :
    toULong ms = ms.toNat := by
  unfold toULong ulongMod
  rw [Int.emod_eq_of_lt h0 (by simpa using h1)]

/-! ## The claims -/

/-- C5: `isRedoxTooLow` returns `true` exactly when the voltage returned by
`measureVoltage` is strictly greater than `setpoint` (for finite values: when
the setpoint is strictly below the voltage); a voltage equal to the setpoint
yields `false`. -/
theorem isRedoxTooLow_iff_voltage_gt_setpoint (cfg : Config) (env : Env) (w : World) :
    ((isRedoxTooLow cfg env w).1 = true ↔ (measureVoltage env w).1.gt cfg.setpoint = true) ∧
    (∀ v s : ℚ, (measureVoltage env w).1 = Dbl.fin v → cfg.setpoint = Dbl.fin s →
      ((isRedoxTooLow cfg env w).1 = true ↔ s < v)) ∧
    ((measureVoltage env w).1 = cfg.setpoint → (isRedoxTooLow cfg env w).1 = false) := by
  rw [measureVoltage_fst, isRedoxTooLow_eq]
  refine ⟨Iff.rfl, ?_, ?_⟩
  · intro v s hv hs
    simp [hv, hs, Dbl.gt]
  · intro h
    simp [h, Dbl.gt_self]

/-- Witness of C5: a reading of exactly 1.0 V against the setpoint 1.0 V. -/
theorem isRedoxTooLow_iff_voltage_gt_setpoint_witness :
    (measureVoltage (sampleEnv (fun _ => 0) (fun _ => 1000)) World.init).1 =
        scenarioConfig.setpoint ∧
      (isRedoxTooLow scenarioConfig (sampleEnv (fun _ => 0) (fun _ => 1000)) World.init).1 =
        false :=
  have h : (measureVoltage (sampleEnv (fun _ => 0) (fun _ => 1000)) World.init).1 =
      scenarioConfig.setpoint := by
    rw [measureVoltage_fst]
    norm_num [voltageAt, sampleEnv, scenarioConfig, World.init]
  ⟨h, (isRedoxTooLow_iff_voltage_gt_setpoint scenarioConfig
    (sampleEnv (fun _ => 0) (fun _ => 1000)) World.init).2.2 h⟩

/-- C6: for every duration `ms`, `activatePumpFor ms` performs, in this order:
the INFO log of the activation, indicator pin HIGH, pump pin HIGH, one `delay`
(of exactly `ms` for a non-negative `int`), pump pin LOW, indicator pin LOW.
On return both pins are LOW, and starting from a pump pin that is LOW the only
events that start while the pump pin is HIGH are the delay and the write that
drives it LOW. -/
theorem activatePumpFor_effect_sequence (ms : Int) (w : World) :
    emitted w (activatePumpFor ms w) =
      emitted w (logString "INFO" "Motor has been activated" w) ++
        [Event.digitalWrite .led true, Event.digitalWrite .motor true,
          Event.delay (toULong ms),
          Event.digitalWrite .motor false, Event.digitalWrite .led false] ∧
    (0 ≤ ms → ms < 2147483648 → toULong ms = ms.toNat) ∧
    (activatePumpFor ms w).motorLevel = false ∧
    (activatePumpFor ms w).ledLevel = false ∧
    (activatePumpFor ms w).lastRun = w.lastRun ∧
    (activatePumpFor ms w).lastMeasurement = w.lastMeasurement ∧
    eventsWhileHigh .motor false (emitted w (activatePumpFor ms w)) =
      [Event.delay (toULong ms), Event.digitalWrite .motor false] := by
  rw [emitted_activatePumpFor, emitted_logString, activatePumpFor_eq]
  refine ⟨rfl, ?_, rfl, rfl, rfl, rfl, ?_⟩
  · intro h0 h1
    exact toULong_of_nonneg ms h0 (by omega)
  · simp [pumpEvents, logEvents, eventsWhileHigh, pinAfter]

/-- Witness of C6: the call `activatePumpFor(2000)` of `loop`. -/
theorem activatePumpFor_effect_sequence_witness :
    (0 : Int) ≤ 2000 ∧ (2000 : Int) < 2147483648 ∧ toULong 2000 = (2000 : Int).toNat :=
  ⟨by decide, by decide,
    (activatePumpFor_effect_sequence 2000 World.init).2.1 (by decide) (by decide)⟩

/-- The conversion in `measureVoltage`: `toVoltage(value, 4, 2.5, true)` is
called exactly when the raw read is `>= 0` (a raw `0` is converted) and its
result is then returned; on a negative raw read no conversion is made and the
function returns its local `voltage` as it was before any assignment. -/
theorem measureVoltage_conversion (cfg : Config) (env : Env) (w : World) :
    (conversions (emitted w (measureVoltage env w).2) = 1 ↔ 0 ≤ env.adc w.reads) ∧
    (0 ≤ env.adc w.reads →
      emitted w (measureVoltage env w).2 =
        [Event.digitalWrite .led false, Event.adcRead 0 (env.adc w.reads),
          Event.digitalWrite .led true,
          Event.toVoltage (env.adc w.reads) 4 (Dbl.fin (5 / 2)) true] ∧
      (measureVoltage env w).1 = env.toVoltage (env.adc w.reads) 4 (Dbl.fin (5 / 2)) true) ∧
    (env.adc w.reads < 0 →
      emitted w (measureVoltage env w).2 =
        [Event.digitalWrite .led false, Event.adcRead 0 (env.adc w.reads),
          Event.digitalWrite .led true] ∧
      (measureVoltage env w).1 = env.uninit w.reads ∧
      (isRedoxTooLow cfg env w).1 = (env.uninit w.reads).gt cfg.setpoint) := by
  rw [emitted_measureVoltage, measureVoltage_fst, isRedoxTooLow_eq]
  by_cases h : 0 ≤ env.adc w.reads
  · simp [conversions, measureEvents, voltageAt, h, List.countP_cons]
  · simp [conversions, measureEvents, voltageAt, h, List.countP_cons]

/-- C7 (code defect): a first measurement converts the raw read 1500 and
reports 1.5 V; the next raw read is `-1`. The second call of `measureVoltage`
makes no conversion and returns the content `u` of its local `voltage`, which
is declared without an initialiser and is not assigned on this path, whatever
`u` is. The 1.5 V reported before is returned only when that content happens
to be 1.5 V, and `isRedoxTooLow` compares `u` with the setpoint. -/
theorem measureVoltage_fault_returns_uninitialised (u : Dbl) :
    (measureVoltage (faultEnv u) World.init).1 = Dbl.fin (3 / 2) ∧
    (faultEnv u).adc (isRedoxTooLow scenarioConfig (faultEnv u) World.init).2.reads = -1 ∧
    emitted (isRedoxTooLow scenarioConfig (faultEnv u) World.init).2
        (measureVoltage (faultEnv u)
          (isRedoxTooLow scenarioConfig (faultEnv u) World.init).2).2 =
      [Event.digitalWrite .led false, Event.adcRead 0 (-1), Event.digitalWrite .led true] ∧
    (measureVoltage (faultEnv u)
      (isRedoxTooLow scenarioConfig (faultEnv u) World.init).2).1 = u ∧
    ((measureVoltage (faultEnv u)
        (isRedoxTooLow scenarioConfig (faultEnv u) World.init).2).1 =
      (measureVoltage (faultEnv u) World.init).1 ↔ u = Dbl.fin (3 / 2)) ∧
    (isRedoxTooLow scenarioConfig (faultEnv u)
      (isRedoxTooLow scenarioConfig (faultEnv u) World.init).2).1 =
      u.gt scenarioConfig.setpoint := by
  simp only [emitted_measureVoltage, measureVoltage_fst, isRedoxTooLow_eq]
  norm_num [voltageAt, measureEvents, faultEnv, World.init]

/-- C9: an iteration of `loop` reads the sensor (exactly once, through one call
of `isRedoxTooLow`) and sets `lastMeasurement` to the clock reading taken for
it exactly when the wrapping difference between the first clock reading and
`lastMeasurement` is strictly greater than the measurement interval. Otherwise
it only reads the clock once and sleeps 100 ms: the two timestamps and the pins
are unchanged, nothing is read, written or logged. Every iteration ends with
`delay(100)`, and this is its only `delay(100)`. -/
theorem loop_polling_gate (cfg : Config) (env : Env) (w : World) :
    (adcReads (emitted w (loop cfg env w)) = 1 ↔
      cfg.measeurementInterval < usub (env.clock w.ticks % ulongMod) w.lastMeasurement) ∧
    (cfg.measeurementInterval < usub (env.clock w.ticks % ulongMod) w.lastMeasurement →
      (loop cfg env w).lastMeasurement = env.clock (w.ticks + 1) % ulongMod ∧
      (loop cfg env w).reads = w.reads + 1 ∧
      ∃ rest, emitted w (loop cfg env w) =
          [Event.millis (env.clock w.ticks % ulongMod),
            Event.millis (env.clock (w.ticks + 1) % ulongMod)] ++
          emitted w (isRedoxTooLow cfg env w).2 ++ rest ∧ adcReads rest = 0) ∧
    (¬ cfg.measeurementInterval < usub (env.clock w.ticks % ulongMod) w.lastMeasurement →
      emitted w (loop cfg env w) =
        [Event.millis (env.clock w.ticks % ulongMod), Event.delay 100] ∧
      (loop cfg env w).lastMeasurement = w.lastMeasurement ∧
      (loop cfg env w).lastRun = w.lastRun ∧
      (loop cfg env w).ledLevel = w.ledLevel ∧
      (loop cfg env w).motorLevel = w.motorLevel ∧
      (loop cfg env w).reads = w.reads ∧
      adcReads (emitted w (loop cfg env w)) = 0 ∧
      pinWrites (emitted w (loop cfg env w)) = 0 ∧
      serialWrites (emitted w (loop cfg env w)) = 0) ∧
    (∃ body, emitted w (loop cfg env w) = body ++ [Event.delay 100] ∧
      List.count (Event.delay 100) body = 0) := by
  rw [emitted_isRedoxTooLow]
  obtain ⟨-, -, hr3, -, -, hr6⟩ := counts_redoxEvents env w.reads
  obtain ⟨-, hp2, -, hp4⟩ := counts_pumpEvents
  obtain ⟨-, -, hw3, -, hw5⟩ := counts_warn
  obtain ⟨-, -, ho3, -, -, ho6⟩ := counts_ok
  have hm : ∀ l : List Nat, adcReads (l.map Event.millis) = 0 ∧
      List.count (Event.delay 100) (l.map Event.millis) = 0 :=
    fun l => ⟨(counts_clock l).2.2.1, (counts_clock l).2.2.2.2.2⟩
  have hs : adcReads [Event.delay 100] = 0 := counts_sleep.2.2.1
  by_cases hgate :
      cfg.measeurementInterval < usub (env.clock w.ticks % ulongMod) w.lastMeasurement
  · have hfields : (loop cfg env w).lastMeasurement = env.clock (w.ticks + 1) % ulongMod ∧
        (loop cfg env w).reads = w.reads + 1 := by
      cases hv : (voltageAt env w.reads).gt cfg.setpoint
      · rw [loop_ok cfg env w hgate hv]; exact ⟨rfl, rfl⟩
      · by_cases hc : cfg.pauseAfterMotorActivation <
            usub (env.clock (w.ticks + 2) % ulongMod) w.lastRun ∨ w.lastRun = 0
        · rw [loop_pump cfg env w hgate hv hc]; exact ⟨rfl, rfl⟩
        · rw [loop_warn cfg env w hgate hv hc]; exact ⟨rfl, rfl⟩
    have hshape : ∃ rest, emitted w (loop cfg env w) =
        [env.clock w.ticks % ulongMod, env.clock (w.ticks + 1) % ulongMod].map Event.millis ++
          redoxEvents env w.reads ++ (rest ++ [Event.delay 100]) ∧ adcReads rest = 0 ∧
          List.count (Event.delay 100) rest = 0 := by
      rcases loop_paths cfg env w with h | h | h | h | h
      · exact absurd hgate h.1
      · exact ⟨logEvents "INFO" "Redox ok", by rw [h.2.2]; simp, ho3, ho6⟩
      · refine ⟨[env.clock (w.ticks + 2) % ulongMod].map Event.millis ++ pumpEvents 2000 ++
          [env.clock (w.ticks + 3) % ulongMod].map Event.millis, by rw [h.2.2.2]; simp, ?_, ?_⟩
        · simp only [adcReads_append, hm, hp2]
        · simp only [List.count_append, hm, hp4]
      · refine ⟨[env.clock (w.ticks + 2) % ulongMod,
          env.clock (w.ticks + 3) % ulongMod].map Event.millis ++
          logEvents "WARN" "Redox too low, but pump already activated recently",
          by rw [h.2.2.2.2]; simp, ?_, ?_⟩
        · simp only [adcReads_append, hm, hw3]
        · simp only [List.count_append, hm, hw5]
      · refine ⟨[env.clock (w.ticks + 2) % ulongMod,
          env.clock (w.ticks + 3) % ulongMod].map Event.millis ++
          logEvents "INFO" "Redox ok", by rw [h.2.2.2.2]; simp, ?_, ?_⟩
        · simp only [adcReads_append, hm, ho3]
        · simp only [List.count_append, hm, ho6]
    obtain ⟨rest, hE, hrest, hrest2⟩ := hshape
    have hcount : adcReads (emitted w (loop cfg env w)) = 1 := by
      rw [hE]; simp only [adcReads_append, hm, hr3, hrest, hs]
    refine ⟨⟨fun _ => hgate, fun _ => hcount⟩, fun _ => ⟨hfields.1, hfields.2,
      rest ++ [Event.delay 100], hE, by simp only [adcReads_append, hrest, hs]⟩,
      fun h => absurd hgate h, ?_⟩
    refine ⟨[env.clock w.ticks % ulongMod, env.clock (w.ticks + 1) % ulongMod].map
      Event.millis ++ redoxEvents env w.reads ++ rest, by rw [hE]; simp, ?_⟩
    simp only [List.count_append, hm, hr6, hrest2]
  · have hl := loop_idle cfg env w hgate
    have hE : emitted w (loop cfg env w) =
        [Event.millis (env.clock w.ticks % ulongMod), Event.delay 100] :=
      emitted_of_trace (by rw [hl])
    have h0 : adcReads (emitted w (loop cfg env w)) = 0 := by
      rw [hE]; simp [adcReads, List.countP_cons]
    refine ⟨⟨fun h => ?_, fun h => absurd h hgate⟩, fun h => absurd h hgate, fun _ => ?_, ?_⟩
    · rw [h0] at h; exact absurd h (by decide)
    · refine ⟨hE, ?_, ?_, ?_, ?_, ?_, h0, ?_, ?_⟩
      · rw [hl]
      · rw [hl]
      · rw [hl]
      · rw [hl]
      · rw [hl]
      · rw [hE]; simp [pinWrites, List.countP_cons]
      · rw [hE]; simp [serialWrites, List.countP_cons]
    · exact ⟨[Event.millis (env.clock w.ticks % ulongMod)], hE, by simp [List.count_cons]⟩

/-- Witness of C9, the boundary of the gate in Scenario 1: from the initial
state a first clock reading of 5001 opens the gate and the sensor is read once;
a first clock reading of 5000 leaves it closed and the iteration only reads the
clock and sleeps. -/
theorem loop_polling_gate_witness :
    adcReads (emitted World.init
      (loop scenarioConfig (sampleEnv (fun _ => 5001) (fun _ => 1500)) World.init)) = 1 ∧
    emitted World.init
        (loop scenarioConfig (sampleEnv (fun _ => 5000) (fun _ => 1500)) World.init) =
      [Event.millis (5000 % ulongMod), Event.delay 100] :=
  ⟨(loop_polling_gate scenarioConfig (sampleEnv (fun _ => 5001) (fun _ => 1500))
      World.init).1.mpr (by decide),
    ((loop_polling_gate scenarioConfig (sampleEnv (fun _ => 5000) (fun _ => 1500))
      World.init).2.2.1 (by decide)).1⟩

/-- C1: if an iteration of `loop` activates the pump, then either `lastRun = 0`
or the wrapping difference between the clock reading of the check (the third
reading of the iteration, taken right before the activation) and `lastRun` is
strictly greater than `pauseAfterMotorActivation`; so the pump is never
activated while `lastRun != 0` and that difference is below the pause. The
activation is `activatePumpFor(2000)`, right after the clock read of the
check. -/
theorem loop_cooldown_invariant (cfg : Config) (env : Env) (w : World)
    (hact : pumpActivations (emitted w (loop cfg env w)) ≠ 0) :
    (w.lastRun = 0 ∨
      cfg.pauseAfterMotorActivation < usub (env.clock (w.ticks + 2) % ulongMod) w.lastRun) ∧
    ¬ (w.lastRun ≠ 0 ∧
      usub (env.clock (w.ticks + 2) % ulongMod) w.lastRun < cfg.pauseAfterMotorActivation) ∧
    ∃ before after, emitted w (loop cfg env w) =
      before ++ [Event.millis (env.clock (w.ticks + 2) % ulongMod)] ++
        emitted w (activatePumpFor 2000 w) ++ after := by
  obtain ⟨hr1, -⟩ := counts_redoxEvents env w.reads
  obtain ⟨hw1, -⟩ := counts_warn
  obtain ⟨ho1, -⟩ := counts_ok
  have hm : ∀ l : List Nat, pumpActivations (l.map Event.millis) = 0 :=
    fun l => (counts_clock l).1
  have hs : pumpActivations [Event.delay 100] = 0 := counts_sleep.1
  rcases loop_paths cfg env w with h | h | h | h | h
  · rw [h.2] at hact
    simp only [pumpActivations_append, hm, hs] at hact
    exact absurd rfl hact
  · rw [h.2.2] at hact
    simp only [pumpActivations_append, hm, hs, hr1, ho1] at hact
    exact absurd rfl hact
  · obtain ⟨-, -, hc, hE⟩ := h
    refine ⟨hc.symm, ?_, ?_⟩
    · rintro ⟨h0, hlt⟩
      rcases hc with hc | hc
      · omega
      · exact h0 hc
    · rw [emitted_activatePumpFor]
      exact ⟨[env.clock w.ticks % ulongMod, env.clock (w.ticks + 1) % ulongMod].map
        Event.millis ++ redoxEvents env w.reads,
        [env.clock (w.ticks + 3) % ulongMod].map Event.millis ++ [Event.delay 100],
        by rw [hE]; simp⟩
  · rw [h.2.2.2.2] at hact
    simp only [pumpActivations_append, hm, hs, hr1, hw1] at hact
    exact absurd rfl hact
  · rw [h.2.2.2.2] at hact
    simp only [pumpActivations_append, hm, hs, hr1, ho1] at hact
    exact absurd rfl hact

/-- The iteration of `loop` that activates the pump: events and final state. -/
theorem loop_pump_cycle (cfg : Config) (env : Env) (w : World)
    (hgate : cfg.measeurementInterval < usub (env.clock w.ticks % ulongMod) w.lastMeasurement)
    (hv : (measureVoltage env w).1.gt cfg.setpoint = true)
    (hc : cfg.pauseAfterMotorActivation < usub (env.clock (w.ticks + 2) % ulongMod) w.lastRun ∨
      w.lastRun = 0) :
    emitted w (loop cfg env w) =
      [Event.millis (env.clock w.ticks % ulongMod),
        Event.millis (env.clock (w.ticks + 1) % ulongMod)] ++
      emitted w (isRedoxTooLow cfg env w).2 ++
      [Event.millis (env.clock (w.ticks + 2) % ulongMod)] ++
      emitted w (activatePumpFor 2000 w) ++
      [Event.millis (env.clock (w.ticks + 3) % ulongMod), Event.delay 100] ∧
    pumpActivations (emitted w (loop cfg env w)) = 1 ∧
    (loop cfg env w).lastRun = env.clock (w.ticks + 3) % ulongMod ∧
    (loop cfg env w).ledLevel = false ∧ (loop cfg env w).motorLevel = false ∧
    logLines "WARN" (emitted w (loop cfg env w)) = 0 := by
  rw [measureVoltage_fst] at hv
  have hl := loop_pump cfg env w hgate hv hc
  have hE : emitted w (loop cfg env w) = _ := emitted_of_trace (by rw [hl])
  rw [emitted_isRedoxTooLow, emitted_activatePumpFor]
  have hm := counts_clock [env.clock w.ticks % ulongMod, env.clock (w.ticks + 1) % ulongMod]
  have hm2 := counts_clock [env.clock (w.ticks + 2) % ulongMod]
  have hm3 : pumpActivations [Event.millis (env.clock (w.ticks + 3) % ulongMod),
      Event.delay 100] = 0 ∧ logLines "WARN" [Event.millis (env.clock (w.ticks + 3) % ulongMod),
      Event.delay 100] = 0 := by
    simp [pumpActivations, logLines, List.count_cons]
  simp only [List.map] at hm hm2
  refine ⟨hE, ?_, by rw [hl], by rw [hl], by rw [hl], ?_⟩
  · rw [hE]
    simp only [pumpActivations_append, hm.1, hm2.1, hm3.1, (counts_redoxEvents env w.reads).1,
      counts_pumpEvents.1]
  · rw [hE]
    simp only [logLines_append, hm.2.2.2.1, hm2.2.2.2.1, hm3.2,
      (counts_redoxEvents env w.reads).2.2.2.1, counts_pumpEvents.2.2.1]

/-- Witness of C1: the first measurement cycle of Scenario 1 at clock 5001,
with the pump never run. -/
theorem loop_cooldown_invariant_witness :
    pumpActivations (emitted World.init
      (loop scenarioConfig (sampleEnv (fun _ => 5001) (fun _ => 1500)) World.init)) ≠ 0 ∧
    (World.init.lastRun = 0 ∨ scenarioConfig.pauseAfterMotorActivation <
      usub ((sampleEnv (fun _ => 5001) (fun _ => 1500)).clock (World.init.ticks + 2) % ulongMod)
        World.init.lastRun) :=
  have h : pumpActivations (emitted World.init
      (loop scenarioConfig (sampleEnv (fun _ => 5001) (fun _ => 1500)) World.init)) ≠ 0 := by
    rw [(loop_pump_cycle scenarioConfig (sampleEnv (fun _ => 5001) (fun _ => 1500)) World.init
      (by decide) (by rw [measureVoltage_fst]; norm_num [voltageAt, sampleEnv, scenarioConfig,
        World.init, Dbl.gt]) (Or.inr rfl)).2.1]
    decide
  ⟨h, (loop_cooldown_invariant scenarioConfig (sampleEnv (fun _ => 5001) (fun _ => 1500))
    World.init h).1⟩

/-- C2: in a measurement cycle of `loop` in which the measured voltage is
greater than `setpoint` and, at the clock read of the check, either the
wrapping difference to `lastRun` exceeds `pauseAfterMotorActivation` or
`lastRun = 0`, the pump is activated exactly once, by `activatePumpFor(2000)`,
and `lastRun` is then the clock reading taken right after the activation. The
sensor is not read between the start of the iteration and the measurement, so
the measured voltage is the one `measureVoltage` returns from `w`. -/
theorem loop_activates_pump (cfg : Config) (env : Env) (w : World)
    (hgate : cfg.measeurementInterval < usub (env.clock w.ticks % ulongMod) w.lastMeasurement)
    (hv : (measureVoltage env w).1.gt cfg.setpoint = true)
    (hc : cfg.pauseAfterMotorActivation < usub (env.clock (w.ticks + 2) % ulongMod) w.lastRun ∨
      w.lastRun = 0) :
    emitted w (loop cfg env w) =
      [Event.millis (env.clock w.ticks % ulongMod),
        Event.millis (env.clock (w.ticks + 1) % ulongMod)] ++
      emitted w (isRedoxTooLow cfg env w).2 ++
      [Event.millis (env.clock (w.ticks + 2) % ulongMod)] ++
      emitted w (activatePumpFor 2000 w) ++
      [Event.millis (env.clock (w.ticks + 3) % ulongMod), Event.delay 100] ∧
    pumpActivations (emitted w (loop cfg env w)) = 1 ∧
    (loop cfg env w).lastRun = env.clock (w.ticks + 3) % ulongMod :=
  have h := loop_pump_cycle cfg env w hgate hv hc
  ⟨h.1, h.2.1, h.2.2.1⟩

/-- Witness of C2: a cycle at clock 700000 with 1.5 V, the pump last run at
2000: the cooldown of 600000 ms has elapsed. -/
theorem loop_activates_pump_witness :
    pumpActivations (emitted { World.init with lastRun := 2000 }
      (loop scenarioConfig (sampleEnv (fun k => 700000 + k) (fun _ => 1500))
        { World.init with lastRun := 2000 })) = 1 ∧
    (loop scenarioConfig (sampleEnv (fun k => 700000 + k) (fun _ => 1500))
      { World.init with lastRun := 2000 }).lastRun = 700003 :=
  (loop_activates_pump scenarioConfig (sampleEnv (fun k => 700000 + k) (fun _ => 1500))
    { World.init with lastRun := 2000 } (by decide)
    (by rw [measureVoltage_fst]; norm_num [voltageAt, sampleEnv, scenarioConfig, World.init,
      Dbl.gt])
    (Or.inl (by decide))).2

/-- A measurement cycle of `loop` with the voltage above `setpoint`, a pump
that has run before (`lastRun != 0`) and a cooldown that has not elapsed at the
clock read of the first condition: the pump is not activated, the pump pin is
not written and `lastRun` is unchanged. The WARN line is logged exactly when
`millis() - lastRun` is strictly below `pauseAfterMotorActivation` at the clock
read of the second condition; otherwise no WARN line is logged and the line
`Redox ok` is. -/
theorem loop_cooldown_not_elapsed (cfg : Config) (env : Env) (w : World)
    (hgate : cfg.measeurementInterval < usub (env.clock w.ticks % ulongMod) w.lastMeasurement)
    (hv : (measureVoltage env w).1.gt cfg.setpoint = true)
    (hrun : w.lastRun ≠ 0)
    (h3 : ¬ cfg.pauseAfterMotorActivation <
      usub (env.clock (w.ticks + 2) % ulongMod) w.lastRun) :
    pumpActivations (emitted w (loop cfg env w)) = 0 ∧
    motorWrites (emitted w (loop cfg env w)) = 0 ∧
    (loop cfg env w).lastRun = w.lastRun ∧
    (loop cfg env w).motorLevel = w.motorLevel ∧
    (usub (env.clock (w.ticks + 3) % ulongMod) w.lastRun < cfg.pauseAfterMotorActivation →
      logLines "WARN" (emitted w (loop cfg env w)) = 1 ∧
      messageLines "Redox ok" (emitted w (loop cfg env w)) = 0) ∧
    (¬ usub (env.clock (w.ticks + 3) % ulongMod) w.lastRun < cfg.pauseAfterMotorActivation →
      logLines "WARN" (emitted w (loop cfg env w)) = 0 ∧
      messageLines "Redox ok" (emitted w (loop cfg env w)) = 1) := by
  rw [measureVoltage_fst] at hv
  have hc : ¬ (cfg.pauseAfterMotorActivation <
      usub (env.clock (w.ticks + 2) % ulongMod) w.lastRun ∨ w.lastRun = 0) := by
    rintro (h | h)
    · exact h3 h
    · exact hrun h
  have hl := loop_warn cfg env w hgate hv hc
  have hm := counts_clock [env.clock w.ticks % ulongMod, env.clock (w.ticks + 1) % ulongMod]
  have hm2 := counts_clock [env.clock (w.ticks + 2) % ulongMod,
    env.clock (w.ticks + 3) % ulongMod]
  simp only [List.map] at hm hm2
  have hr := counts_redoxEvents env w.reads
  have hwm : messageLines "Redox ok"
      (logEvents "WARN" "Redox too low, but pump already activated recently") = 0 := by
    simp [messageLines, logEvents, List.count_cons]
  by_cases h4 : usub (env.clock (w.ticks + 3) % ulongMod) w.lastRun <
      cfg.pauseAfterMotorActivation
  · rw [if_pos h4] at hl
    have hE : emitted w (loop cfg env w) = _ := emitted_of_trace (by rw [hl])
    refine ⟨?_, ?_, by rw [hl], by rw [hl], fun _ => ⟨?_, ?_⟩, fun h => absurd h4 h⟩
    · rw [hE]
      simp only [pumpActivations_append, hm.1, hm2.1, hr.1, counts_warn.1, counts_sleep.1]
    · rw [hE]
      simp only [motorWrites_append, hm.2.1, hm2.2.1, hr.2.1, counts_warn.2.1,
        counts_sleep.2.1]
    · rw [hE]
      simp only [logLines_append, hm.2.2.2.1, hm2.2.2.2.1, hr.2.2.2.1, counts_warn.2.2.2.1,
        counts_sleep.2.2.2.1]
    · rw [hE]
      simp only [messageLines_append, hm.2.2.2.2.1, hm2.2.2.2.2.1, hr.2.2.2.2.1, hwm,
        counts_sleep.2.2.2.2]
  · rw [if_neg h4] at hl
    have hE : emitted w (loop cfg env w) = _ := emitted_of_trace (by rw [hl])
    refine ⟨?_, ?_, by rw [hl], by rw [hl], fun h => absurd h h4, fun _ => ⟨?_, ?_⟩⟩
    · rw [hE]
      simp only [pumpActivations_append, hm.1, hm2.1, hr.1, counts_ok.1, counts_sleep.1]
    · rw [hE]
      simp only [motorWrites_append, hm.2.1, hm2.2.1, hr.2.1, counts_ok.2.1, counts_sleep.2.1]
    · rw [hE]
      simp only [logLines_append, hm.2.2.2.1, hm2.2.2.2.1, hr.2.2.2.1, counts_ok.2.2.2.1,
        counts_sleep.2.2.2.1]
    · rw [hE]
      simp only [messageLines_append, hm.2.2.2.2.1, hm2.2.2.2.2.1, hr.2.2.2.2.1,
        counts_ok.2.2.2.2.1, counts_sleep.2.2.2.2]

/-- C3 (code defect), the boundary of the two conditions of `loop`: setpoint
1.0 V, cooldown 600000 ms, the pump last run at 1, and 1.5 V read with every
clock reading at 600001. The gate is open, the voltage is above the setpoint,
the pump has run before and the cooldown has not elapsed, since
`millis() - lastRun` equals 600000 and is not greater. Neither `>` nor `<`
holds: the pump is not activated and `lastRun` is unchanged, but no WARN line
is logged and the line `Redox ok` is logged instead. -/
theorem loop_at_cooldown_boundary :
    scenarioConfig.measeurementInterval <
      usub ((sampleEnv (fun _ => 600001) (fun _ => 1500)).clock
        ({ World.init with lastRun := 1 } : World).ticks % ulongMod)
        ({ World.init with lastRun := 1 } : World).lastMeasurement ∧
    (measureVoltage (sampleEnv (fun _ => 600001) (fun _ => 1500))
      { World.init with lastRun := 1 }).1.gt scenarioConfig.setpoint = true ∧
    ({ World.init with lastRun := 1 } : World).lastRun ≠ 0 ∧
    usub ((sampleEnv (fun _ => 600001) (fun _ => 1500)).clock
        (({ World.init with lastRun := 1 } : World).ticks + 2) % ulongMod)
        ({ World.init with lastRun := 1 } : World).lastRun =
      scenarioConfig.pauseAfterMotorActivation ∧
    pumpActivations (emitted { World.init with lastRun := 1 }
      (loop scenarioConfig (sampleEnv (fun _ => 600001) (fun _ => 1500))
        { World.init with lastRun := 1 })) = 0 ∧
    (loop scenarioConfig (sampleEnv (fun _ => 600001) (fun _ => 1500))
      { World.init with lastRun := 1 }).lastRun = 1 ∧
    logLines "WARN" (emitted { World.init with lastRun := 1 }
      (loop scenarioConfig (sampleEnv (fun _ => 600001) (fun _ => 1500))
        { World.init with lastRun := 1 })) = 0 ∧
    messageLines "Redox ok" (emitted { World.init with lastRun := 1 }
      (loop scenarioConfig (sampleEnv (fun _ => 600001) (fun _ => 1500))
        { World.init with lastRun := 1 })) = 1 := by
  have hv : (measureVoltage (sampleEnv (fun _ => 600001) (fun _ => 1500))
      { World.init with lastRun := 1 }).1.gt scenarioConfig.setpoint = true := by
    rw [measureVoltage_fst]
    norm_num [voltageAt, sampleEnv, scenarioConfig, World.init, Dbl.gt]
  have h := loop_cooldown_not_elapsed scenarioConfig
    (sampleEnv (fun _ => 600001) (fun _ => 1500)) { World.init with lastRun := 1 }
    (by decide) hv (by decide) (by decide)
  exact ⟨by decide, hv, by decide, by decide, h.1, h.2.2.1, (h.2.2.2.2.2 (by decide)).1,
    (h.2.2.2.2.2 (by decide)).2⟩

/-- C4: in a measurement cycle of `loop` in which the measured voltage is less
than or equal to `setpoint`, whatever `lastRun` and the clock are, the pump is
not activated, the pump pin is not written, `lastRun` is unchanged, no WARN
line is logged and exactly one line `Redox ok` is logged, at INFO. -/
theorem loop_redox_ok (cfg : Config) (env : Env) (w : World)
    (hgate : cfg.measeurementInterval < usub (env.clock w.ticks % ulongMod) w.lastMeasurement)
    (hv : (measureVoltage env w).1.le cfg.setpoint = true) :
    emitted w (loop cfg env w) =
      [Event.millis (env.clock w.ticks % ulongMod),
        Event.millis (env.clock (w.ticks + 1) % ulongMod)] ++
      emitted w (isRedoxTooLow cfg env w).2 ++
      emitted w (logString "INFO" "Redox ok" w) ++ [Event.delay 100] ∧
    pumpActivations (emitted w (loop cfg env w)) = 0 ∧
    motorWrites (emitted w (loop cfg env w)) = 0 ∧
    (loop cfg env w).lastRun = w.lastRun ∧
    logLines "WARN" (emitted w (loop cfg env w)) = 0 ∧
    messageLines "Redox ok" (emitted w (loop cfg env w)) = 1 := by
  rw [measureVoltage_fst] at hv
  have hl := loop_ok cfg env w hgate (Dbl.gt_of_le hv)
  have hE : emitted w (loop cfg env w) = _ := emitted_of_trace (by rw [hl])
  have hm := counts_clock [env.clock w.ticks % ulongMod, env.clock (w.ticks + 1) % ulongMod]
  simp only [List.map] at hm
  have hr := counts_redoxEvents env w.reads
  rw [emitted_isRedoxTooLow, emitted_logString]
  refine ⟨hE, ?_, ?_, by rw [hl], ?_, ?_⟩
  · rw [hE]
    simp only [pumpActivations_append, hm.1, hr.1, counts_ok.1, counts_sleep.1]
  · rw [hE]
    simp only [motorWrites_append, hm.2.1, hr.2.1, counts_ok.2.1, counts_sleep.2.1]
  · rw [hE]
    simp only [logLines_append, hm.2.2.2.1, hr.2.2.2.1, counts_ok.2.2.2.1,
      counts_sleep.2.2.2.1]
  · rw [hE]
    simp only [messageLines_append, hm.2.2.2.2.1, hr.2.2.2.2.1, counts_ok.2.2.2.2.1,
      counts_sleep.2.2.2.2]

/-- Witness of C4, Scenario 3: the voltage is exactly 1.0 V, the setpoint. -/
theorem loop_redox_ok_witness :
    (measureVoltage (sampleEnv (fun _ => 10000) (fun _ => 1000)) World.init).1 =
      scenarioConfig.setpoint ∧
    pumpActivations (emitted World.init
      (loop scenarioConfig (sampleEnv (fun _ => 10000) (fun _ => 1000)) World.init)) = 0 ∧
    messageLines "Redox ok" (emitted World.init
      (loop scenarioConfig (sampleEnv (fun _ => 10000) (fun _ => 1000)) World.init)) = 1 :=
  have hv : (measureVoltage (sampleEnv (fun _ => 10000) (fun _ => 1000)) World.init).1 =
      scenarioConfig.setpoint := by
    rw [measureVoltage_fst]
    norm_num [voltageAt, sampleEnv, scenarioConfig, World.init]
  have h := loop_redox_ok scenarioConfig (sampleEnv (fun _ => 10000) (fun _ => 1000))
    World.init (by decide) (by rw [hv]; simp [scenarioConfig, Dbl.le])
  ⟨hv, h.2.1, h.2.2.2.2.2⟩

theorem usub_zero (a : Nat) : usub (a % ulongMod) 0 = a % ulongMod := by
  unfold usub ulongMod
  omega

theorem usub_eq_sub {a b : Nat} (hb : b ≤ a) (ha : a < ulongMod) : usub a b = a - b := by
  unfold usub
  unfold ulongMod at *
  omega

/-- Counterexample to C8 as stated: Scenario 1 at clock time 0. From the initial
state, with the sensor at 1.5 V and every clock reading equal to 0, the gate
`millis() - lastMeasurement > 5000` is closed: the iteration reads the clock
once and sleeps; the pump is not activated and no pin is written. -/
theorem scenario_one_at_time_zero :
    (measureVoltage (sampleEnv (fun _ => 0) (fun _ => 1500)) World.init).1 = Dbl.fin (3 / 2) ∧
    emitted World.init
        (loop scenarioConfig (sampleEnv (fun _ => 0) (fun _ => 1500)) World.init) =
      [Event.millis 0, Event.delay 100] ∧
    pumpActivations (emitted World.init
      (loop scenarioConfig (sampleEnv (fun _ => 0) (fun _ => 1500)) World.init)) = 0 ∧
    pinWrites (emitted World.init
      (loop scenarioConfig (sampleEnv (fun _ => 0) (fun _ => 1500)) World.init)) = 0 := by
  have hl := loop_idle scenarioConfig (sampleEnv (fun _ => 0) (fun _ => 1500)) World.init
    (by decide)
  have hE : emitted World.init
      (loop scenarioConfig (sampleEnv (fun _ => 0) (fun _ => 1500)) World.init) =
      [Event.millis 0, Event.delay 100] := emitted_of_trace (by rw [hl]; rfl)
  refine ⟨?_, hE, ?_, ?_⟩
  · rw [measureVoltage_fst]
    norm_num [voltageAt, sampleEnv, World.init]
  · rw [hE]; decide
  · rw [hE]; decide

/-- C8 (amended), Scenario 1: with setpoint 1.0, measurement interval 5000 and
cooldown 600000, from the initial state (`lastMeasurement = 0`, `lastRun = 0`),
an iteration of `loop` whose first clock reading is greater than 5000, with
the sensor reading 1.5 V, activates the pump: after the measurement the
activation is logged, the indicator and pump pins go HIGH, `delay(2000)`
follows, both pins go LOW, and `lastRun` becomes the clock reading taken after
that. -/
theorem scenario_one_first_cycle (env : Env)
    (hgate : 5000 < env.clock 0 % ulongMod)
    (hv : (measureVoltage env World.init).1 = Dbl.fin (3 / 2)) :
    emitted World.init (loop scenarioConfig env World.init) =
      [Event.millis (env.clock 0 % ulongMod), Event.millis (env.clock 1 % ulongMod)] ++
      emitted World.init (isRedoxTooLow scenarioConfig env World.init).2 ++
      [Event.millis (env.clock 2 % ulongMod),
        Event.serialPrint "[INFO]", Event.serialPrint ": ",
        Event.serialPrintln "Motor has been activated",
        Event.digitalWrite .led true, Event.digitalWrite .motor true,
        Event.delay 2000,
        Event.digitalWrite .motor false, Event.digitalWrite .led false,
        Event.millis (env.clock 3 % ulongMod), Event.delay 100] ∧
    (loop scenarioConfig env World.init).lastRun = env.clock 3 % ulongMod ∧
    (loop scenarioConfig env World.init).ledLevel = false ∧
    (loop scenarioConfig env World.init).motorLevel = false := by
  have hg : scenarioConfig.measeurementInterval <
      usub (env.clock World.init.ticks % ulongMod) World.init.lastMeasurement := by
    show 5000 < usub (env.clock 0 % ulongMod) 0
    rw [usub_zero]; exact hgate
  have hv2 : (measureVoltage env World.init).1.gt scenarioConfig.setpoint = true := by
    rw [hv]; norm_num [scenarioConfig, Dbl.gt]
  have h := loop_pump_cycle scenarioConfig env World.init hg hv2 (Or.inr rfl)
  refine ⟨?_, h.2.2.1, h.2.2.2.1, h.2.2.2.2.1⟩
  rw [h.1, emitted_activatePumpFor]
  simp [pumpEvents, logEvents, World.init, toULong, ulongMod]

/-- Witness of C8 (amended): the first clock reading is 5001 and the clock
advances 3000 ms per reading; `lastRun` becomes 14001. -/
theorem scenario_one_first_cycle_witness :
    5000 < (sampleEnv boundedClock (fun _ => 1500)).clock 0 % ulongMod ∧
    (loop scenarioConfig (sampleEnv boundedClock (fun _ => 1500)) World.init).lastRun =
      14001 :=
  ⟨by decide,
    (scenario_one_first_cycle (sampleEnv boundedClock (fun _ => 1500)) (by decide)
      (by rw [measureVoltage_fst]; norm_num [voltageAt, sampleEnv, World.init])).2.1⟩

/-! ## The `lastRun` sentinel over a run -/

/-- What one iteration of `loop` does to the timestamps and the trace: either
`lastRun` is kept and no activation is added, or the gate was open and the
trace ends with one activation, the clock read stored in `lastRun` and the
final sleep. -/
theorem loop_step (cfg : Config) (env : Env) (w : World) :
    (∃ l, (loop cfg env w).trace = w.trace ++ l ∧ pumpActivations l = 0 ∧
      (loop cfg env w).lastRun = w.lastRun ∧
      ((loop cfg env w).lastMeasurement = w.lastMeasurement ∧
          (loop cfg env w).ticks = w.ticks + 1 ∨
        (loop cfg env w).lastMeasurement = env.clock (w.ticks + 1) % ulongMod ∧
          w.ticks + 1 ≤ (loop cfg env w).ticks)) ∨
    (cfg.measeurementInterval < usub (env.clock w.ticks % ulongMod) w.lastMeasurement ∧
      ∃ l, (loop cfg env w).trace = w.trace ++ l ++ pumpEvents 2000 ++
          [Event.millis (loop cfg env w).lastRun, Event.delay 100] ∧ pumpActivations l = 0 ∧
        (loop cfg env w).lastRun = env.clock (w.ticks + 3) % ulongMod ∧
        (loop cfg env w).lastMeasurement = env.clock (w.ticks + 1) % ulongMod ∧
        (loop cfg env w).ticks = w.ticks + 4) := by
  have hm := fun a b => counts_clock [a, b]
  simp only [List.map] at hm
  have hr := counts_redoxEvents env w.reads
  by_cases hgate :
      cfg.measeurementInterval < usub (env.clock w.ticks % ulongMod) w.lastMeasurement
  · cases hv : (voltageAt env w.reads).gt cfg.setpoint
    · refine Or.inl ⟨_, by rw [loop_ok cfg env w hgate hv], ?_, by rw [loop_ok cfg env w hgate hv],
        Or.inr ?_⟩
      · simp only [pumpActivations_append, (hm _ _).1, hr.1, counts_ok.1, counts_sleep.1]
      · rw [loop_ok cfg env w hgate hv]; exact ⟨rfl, by simp⟩
    · by_cases hc : cfg.pauseAfterMotorActivation <
          usub (env.clock (w.ticks + 2) % ulongMod) w.lastRun ∨ w.lastRun = 0
      · refine Or.inr ⟨hgate, [Event.millis (env.clock w.ticks % ulongMod),
          Event.millis (env.clock (w.ticks + 1) % ulongMod)] ++ redoxEvents env w.reads ++
          [Event.millis (env.clock (w.ticks + 2) % ulongMod)], ?_, ?_, ?_⟩
        · rw [loop_pump cfg env w hgate hv hc]; simp
        · have h1 := (counts_clock [env.clock (w.ticks + 2) % ulongMod]).1
          simp only [List.map] at h1
          simp only [pumpActivations_append, (hm _ _).1, hr.1, h1]
        · rw [loop_pump cfg env w hgate hv hc]; exact ⟨rfl, rfl, rfl⟩
      · refine Or.inl ⟨_, by rw [loop_warn cfg env w hgate hv hc], ?_,
          by rw [loop_warn cfg env w hgate hv hc], Or.inr ?_⟩
        · simp only [pumpActivations_append, (hm _ _).1, hr.1, counts_sleep.1]
          split <;> simp only [counts_warn.1, counts_ok.1]
        · rw [loop_warn cfg env w hgate hv hc]; exact ⟨rfl, by simp⟩
  · refine Or.inl ⟨_, by rw [loop_idle cfg env w hgate], ?_, by rw [loop_idle cfg env w hgate],
      Or.inl ?_⟩
    · simp [pumpActivations, List.count_cons]
    · rw [loop_idle cfg env w hgate]; exact ⟨rfl, rfl⟩

theorem clock_mono {env : Env} (hmono : ∀ k, env.clock k ≤ env.clock (k + 1)) {i j : Nat}
    (h : i ≤ j) : env.clock i ≤ env.clock j :=
  monotone_nat_of_le_succ hmono h

theorem sentinelInv_loop (cfg : Config) (env : Env)
    (hmono : ∀ k, env.clock k ≤ env.clock (k + 1)) (hwrap : ∀ k, env.clock k < ulongMod)
    (w : World) (h : SentinelInv env w) : SentinelInv env (loop cfg env w) := by
  obtain ⟨hlm, hiff, hlast⟩ := h
  have hmod : ∀ k, env.clock k % ulongMod = env.clock k := fun k => Nat.mod_eq_of_lt (hwrap k)
  rcases loop_step cfg env w with ⟨l, ht, hl, hlr, hcase⟩ | ⟨hgate, l, ht, hl, hlr, hlm2, htk⟩
  · refine ⟨?_, ?_, ?_⟩
    · rcases hcase with ⟨h1, h2⟩ | ⟨h1, h2⟩
      · rw [h1, h2]; exact le_trans hlm (hmono _)
      · rw [h1, hmod]; exact clock_mono hmono h2
    · rw [hlr, ht, pumpActivations_append, hl, Nat.add_zero]; exact hiff
    · rw [hlr, ht, pumpActivations_append, hl, Nat.add_zero]
      intro hne
      obtain ⟨before, after, hb, ha⟩ := hlast hne
      refine ⟨before, after ++ l, by rw [hb]; simp, ?_⟩
      rw [pumpActivations_append, ha, hl]
  · have hpos : (loop cfg env w).lastRun ≠ 0 := by
      rw [hlr, hmod]
      rw [hmod, usub_eq_sub hlm (hwrap _)] at hgate
      have h3 : env.clock w.ticks ≤ env.clock (w.ticks + 3) := clock_mono hmono (by omega)
      omega
    have hacts : pumpActivations (loop cfg env w).trace ≠ 0 := by
      rw [ht]
      simp only [pumpActivations_append, counts_pumpEvents.1]
      omega
    refine ⟨?_, ?_, ?_⟩
    · rw [hlm2, htk, hmod]; exact clock_mono hmono (by omega)
    · exact ⟨fun h => absurd h hpos, fun h => absurd h hacts⟩
    · intro _
      exact ⟨w.trace ++ l, [Event.delay 100], ht, counts_sleep.1⟩

theorem sentinelInv_run (cfg : Config) (env : Env)
    (hmono : ∀ k, env.clock k ≤ env.clock (k + 1)) (hwrap : ∀ k, env.clock k < ulongMod)
    (n : Nat) : ∀ w, SentinelInv env w → SentinelInv env (run cfg env n w) := by
  induction n with
  | zero => intro w h; exact h
  | succ n ih =>
    intro w h
    exact ih _ (sentinelInv_loop cfg env hmono hwrap w h)

/-- C10: in every state reached from the initial state (`lastMeasurement = 0`,
`lastRun = 0`) by iterations of `loop` under a clock that never decreases and
does not wrap around, `lastRun = 0` holds exactly when the pump has never been
activated; after an activation `lastRun` is non-zero and is the clock reading
taken right after the last `activatePumpFor(2000)`. -/
theorem lastRun_sentinel (cfg : Config) (env : Env)
    (hmono : ∀ k, env.clock k ≤ env.clock (k + 1)) (hwrap : ∀ k, env.clock k < ulongMod)
    (n : Nat) :
    ((run cfg env n World.init).lastRun = 0 ↔
      pumpActivations (run cfg env n World.init).trace = 0) ∧
    (pumpActivations (run cfg env n World.init).trace ≠ 0 →
      (run cfg env n World.init).lastRun ≠ 0 ∧
      ∃ before after, (run cfg env n World.init).trace =
          before ++ emitted World.init (activatePumpFor 2000 World.init) ++
            Event.millis (run cfg env n World.init).lastRun :: after ∧
        pumpActivations after = 0) := by
  have h0 : SentinelInv env World.init :=
    ⟨Nat.zero_le _, by simp [World.init, pumpActivations], by simp [World.init, pumpActivations]⟩
  obtain ⟨-, hiff, hlast⟩ := sentinelInv_run cfg env hmono hwrap n World.init h0
  rw [emitted_activatePumpFor]
  exact ⟨hiff, fun hne => ⟨fun h => hne (hiff.mp h), hlast hne⟩⟩

theorem boundedClock_mono (k : Nat) : boundedClock k ≤ boundedClock (k + 1) := by
  unfold boundedClock; omega

theorem boundedClock_lt (k : Nat) : boundedClock k < ulongMod := by
  unfold boundedClock ulongMod; omega

/-- Witness of C10: two iterations of Scenario 1 on a clock that starts at 5001
and advances 3000 ms per reading. -/
theorem lastRun_sentinel_witness :
    (∀ k, (sampleEnv boundedClock (fun _ => 1500)).clock k ≤
      (sampleEnv boundedClock (fun _ => 1500)).clock (k + 1)) ∧
    (∀ k, (sampleEnv boundedClock (fun _ => 1500)).clock k < ulongMod) ∧
    ((run scenarioConfig (sampleEnv boundedClock (fun _ => 1500)) 2 World.init).lastRun = 0 ↔
      pumpActivations
        (run scenarioConfig (sampleEnv boundedClock (fun _ => 1500)) 2 World.init).trace = 0) :=
  ⟨boundedClock_mono, boundedClock_lt,
    (lastRun_sentinel scenarioConfig (sampleEnv boundedClock (fun _ => 1500))
      boundedClock_mono boundedClock_lt 2).1⟩

end RedoxMeter
